import Mathlib

/- Shallow embedding of `src/langchain_wenxin/client.py` (class WenxinClient).

   Modelling conventions:
   * Machine integers do not occur; Python ints are Lean `Int`/`Nat`.
   * HTTP traffic is explicit: every operation takes the HTTP response(s) the
     transport would deliver as arguments, and returns the network requests it
     issued (in order) next to its result.
   * Python exceptions are `Except WenxinError`; Python generators are a
     `GenResult` recording the yielded events and how the generator ended.
   * `json.loads` (Python standard library) is modelled by an executable
     recursive-descent parser `jsonParse` over the standard JSON grammar,
     restricted to integer numerals and to string escapes without a unicode
     escape (the provider envelopes use neither floats nor such escapes).
   * Mutable client state (`self.access_token`, `self.access_token_expires`)
     is threaded explicitly as a `TokenState`. -/

namespace LangchainWenxin

/-- JSON values, as produced by the Python standard library function
`json.loads` on a response body.  A Python dict is a field list (keys are
unique in a `json.loads` result, so first-match lookup below is faithful). -/
inductive Json where
  | null
  | bool (b : Bool)
  | num (n : Int)
  | str (s : String)
  | arr (elems : List Json)
  | obj (fields : List (String × Json))

/-- Lookup of a key in a parsed JSON object, modelling Python `dict.get` /
`dict[...]` on a `json.loads` result (absent key gives `none`). -/
def findField : List (String × Json) → String → Option Json
  | [], _ => none
  | (k, v) :: rest, key => if k = key then some v else findField rest key

/-- Python `response.get(key)` on the parsed JSON envelope; an envelope is a
JSON object, any other value has no fields. -/
def Json.get : Json → String → Option Json
  | .obj fields, key => findField fields key
  | _, _ => none

/-- Whitespace skipping in the JSON grammar. -/
def skipWs : List Char → List Char
  | [] => []
  | c :: cs => if c = ' ' ∨ c = '\n' ∨ c = '\t' ∨ c = '\r' then skipWs cs else c :: cs

/-- Digit run of a JSON integer numeral, accumulating its value. -/
def parseNatAux : List Char → Nat → Nat × List Char
  | c :: cs, acc => if c.isDigit then parseNatAux cs (acc * 10 + (c.toNat - 48)) else (acc, c :: cs)
  | [], acc => (acc, [])

/-- Body of a JSON string literal (after the opening quote), with the
escapes used by the provider payloads. -/
def parseJStr : List Char → List Char → Option (String × List Char)
  | [], _ => none
  | '"' :: rest, acc => some (String.mk acc.reverse, rest)
  | '\\' :: e :: rest, acc =>
    if e = 'n' then parseJStr rest ('\n' :: acc)
    else if e = 't' then parseJStr rest ('\t' :: acc)
    else if e = 'r' then parseJStr rest ('\r' :: acc)
    else if e = '"' ∨ e = '\\' ∨ e = '/' then parseJStr rest (e :: acc)
    else none
  | c :: rest, acc => parseJStr rest (c :: acc)

mutual

/-- One JSON value, by recursive descent with a fuel bound (the fuel is
slack; `jsonParse` supplies enough for its input). -/
def parseVal : Nat → List Char → Option (Json × List Char)
  | 0, _ => none
  | fuel + 1, cs =>
    match skipWs cs with
    | [] => none
    | c :: rest =>
      if c = '"' then
        match parseJStr rest [] with
        | some (s, r) => some (.str s, r)
        | none => none
      else if c = '{' then
        match skipWs rest with
        | '}' :: r => some (.obj [], r)
        | cs2 => parseObjItems fuel cs2 []
      else if c = '[' then
        match skipWs rest with
        | ']' :: r => some (.arr [], r)
        | cs2 => parseArrItems fuel cs2 []
      else if c = '-' then
        match rest with
        | d :: rest2 =>
          if d.isDigit then
            match parseNatAux rest2 (d.toNat - 48) with
            | (n, r) => some (.num (-(n : Int)), r)
          else none
        | [] => none
      else if c.isDigit then
        match parseNatAux rest (c.toNat - 48) with
        | (n, r) => some (.num (n : Int), r)
      else if c = 't' then
        match rest with
        | 'r' :: 'u' :: 'e' :: r => some (.bool true, r)
        | _ => none
      else if c = 'f' then
        match rest with
        | 'a' :: 'l' :: 's' :: 'e' :: r => some (.bool false, r)
        | _ => none
      else if c = 'n' then
        match rest with
        | 'u' :: 'l' :: 'l' :: r => some (.null, r)
        | _ => none
      else none

/-- Members of a JSON object (after the opening brace of a non-empty
object). -/
def parseObjItems : Nat → List Char → List (String × Json) → Option (Json × List Char)
  | 0, _, _ => none
  | fuel + 1, cs, acc =>
    match skipWs cs with
    | '"' :: rest =>
      match parseJStr rest [] with
      | none => none
      | some (key, r1) =>
        match skipWs r1 with
        | ':' :: r2 =>
          match parseVal fuel r2 with
          | none => none
          | some (v, r3) =>
            match skipWs r3 with
            | ',' :: r4 => parseObjItems fuel r4 (acc ++ [(key, v)])
            | '}' :: r4 => some (.obj (acc ++ [(key, v)]), r4)
            | _ => none
        | _ => none
    | _ => none

/-- Elements of a JSON array (after the opening bracket of a non-empty
array). -/
def parseArrItems : Nat → List Char → List Json → Option (Json × List Char)
  | 0, _, _ => none
  | fuel + 1, cs, acc =>
    match parseVal fuel cs with
    | none => none
    | some (v, r1) =>
      match skipWs r1 with
      | ',' :: r2 => parseArrItems fuel r2 (acc ++ [v])
      | ']' :: r2 => some (.arr (acc ++ [v]), r2)
      | _ => none

end

/-- Python `json.loads` on a whole document: exactly one value, with only
trailing whitespace allowed after it. -/
def jsonParse (s : String) : Option Json :=
  match parseVal (2 * s.length + 2) s.data with
  | some (v, rest) => if skipWs rest = [] then some v else none
  | none => none

/-- Failure kinds surfaced to the caller, one per `raise` site reachable from
the client code: `http` for `raise_for_status` on a non-2xx response,
`jsonDecode` for a body `r.json()` / `json.loads` cannot parse, `keyError`
for a missing mandatory key in the grant response, `typeError` for
`now + expires_in` with a non-integer value, `provider` for the wenxin error
envelope, `validation` for the `ValueError`s raised by `embed`. -/
inductive WenxinError where
  | http (status : Nat)
  | jsonDecode
  | keyError (key : String)
  | typeError
  | provider (error_code error_msg : Json)
  | validation (msg : String)

/-- An HTTP response as the transport hands it to the client: status code,
the `Content-Type` header (empty string when absent, matching
`r.headers.get("Content-Type", "")`), and the raw body text. -/
structure HttpResponse where
  status : Nat
  contentType : String
  body : String

/-- Python `requests`/`aiohttp` `raise_for_status` raises exactly for the
4xx and 5xx status codes. -/
def statusError (status : Nat) : Bool := 400 ≤ status

/-- The mutable credential cache of a `WenxinClient` instance:
`self.access_token` (initialised to `""`, but assigned whatever JSON value
the grant response carries) and `self.access_token_expires`
(initialised to `0`). -/
structure TokenState where
  access_token : Json
  access_token_expires : Int

/-- The initial cache of a fresh `WenxinClient`. -/
def initialTokenState : TokenState := ⟨.str "", 0⟩

/-- Python truthiness of a JSON value, for `if self.access_token and ...`. -/
def pyTruthy : Json → Bool
  | .null => false
  | .bool b => b
  | .num n => n ≠ 0
  | .str s => s ≠ ""
  | .arr elems => !elems.isEmpty
  | .obj fields => !fields.isEmpty

/-- Outcome of one call to `grant_token`/`async_grant_token`: the client
state afterwards, the returned token (or the exception), and whether the
grant HTTP request was issued. -/
structure GrantResult where
  state : TokenState
  result : Except WenxinError Json
  networkCalled : Bool

/-- `WenxinClient.grant_token` (client.py lines 38-57).  `st` is the cached
credential, `now` is `int(time.time())`, and `resp` is the response the
token endpoint would return if called.  Mirrors the statement order of the
source: the cache check, `raise_for_status`, `r.json()`, then the two
assignments — `self.access_token = response["access_token"]` completes
before `response["expires_in"]` is evaluated, so a body with an
`access_token` but no usable `expires_in` updates the token value and then
raises, leaving the old expiry in place. -/
def grant_token (st : TokenState) (now : Int) (resp : HttpResponse) : GrantResult :=
  if pyTruthy st.access_token ∧ now < st.access_token_expires then
    ⟨st, .ok st.access_token, false⟩
  else if statusError resp.status then ⟨st, .error (.http resp.status), true⟩
  else
    match jsonParse resp.body with
    | none => ⟨st, .error .jsonDecode, true⟩
    | some response =>
      match response.get ("access_token") with
      | none => ⟨st, .error (.keyError ("access_token")), true⟩
      | some tok =>
        match response.get ("expires_in") with
        | none => ⟨{ st with access_token := tok }, .error (.keyError ("expires_in")), true⟩
        | some (.num e) => ⟨⟨tok, now + e⟩, .ok tok, true⟩
        | some _ => ⟨{ st with access_token := tok }, .error .typeError, true⟩

/-- `WenxinClient.async_grant_token` (client.py lines 59-82): the same
cache check, request, and assignment order as `grant_token`, executed over
`aiohttp` instead of `requests`. -/
def async_grant_token (st : TokenState) (now : Int) (resp : HttpResponse) : GrantResult :=
  if pyTruthy st.access_token ∧ now < st.access_token_expires then
    ⟨st, .ok st.access_token, false⟩
  else if statusError resp.status then ⟨st, .error (.http resp.status), true⟩
  else
    match jsonParse resp.body with
    | none => ⟨st, .error .jsonDecode, true⟩
    | some response =>
      match response.get ("access_token") with
      | none => ⟨st, .error (.keyError ("access_token")), true⟩
      | some tok =>
        match response.get ("expires_in") with
        | none => ⟨{ st with access_token := tok }, .error (.keyError ("expires_in")), true⟩
        | some (.num e) => ⟨⟨tok, now + e⟩, .ok tok, true⟩
        | some _ => ⟨{ st with access_token := tok }, .error .typeError, true⟩

/-- Message roles used by `construct_message`. -/
inductive Role where
  | user
  | assistant
  deriving DecidableEq

/-- One chat message `{"role": ..., "content": ...}`. -/
structure Message where
  role : Role
  content : String
  deriving DecidableEq

/-- `WenxinClient.construct_message` (client.py lines 84-91): each history
pair `(human, ai)` contributes a user message then an assistant message, in
history order, and the live prompt is appended as a final user message. -/
def construct_message (prompt : String) : List (String × String) → List Message
  | [] => [⟨.user, prompt⟩]
  | (human, ai) :: rest => ⟨.user, human⟩ :: ⟨.assistant, ai⟩ :: construct_message prompt rest

/-- The chat URL template `WENXIN_CHAT_URL` with its `{endpoint}` hole
filled. -/
def WENXIN_CHAT_URL (endpoint : String) : String :=
  "https://aip.baidubce.com/rpc/2.0/ai_custom/v1/wenxinworkshop/chat/" ++ endpoint

/-- The embeddings URL template `WENXIN_EMBEDDINGS_URL` with its `{model}`
hole filled. -/
def WENXIN_EMBEDDINGS_URL (model : String) : String :=
  "https://aip.baidubce.com/rpc/2.0/ai_custom/v1/wenxinworkshop/embeddings/" ++ model

/-- `WenxinClient.completions_url` (client.py lines 28-36). -/
def completions_url (model : String) : String :=
  if model = "eb-instant" ∨ model = "ernie-bot-turbo" then WENXIN_CHAT_URL ("eb-instant")
  else if model = "wenxin" ∨ model = "ernie-bot" then WENXIN_CHAT_URL ("completions")
  else WENXIN_CHAT_URL model

/-- Python `error_code != 0` on the value of `response.get("error_code", 0)`:
everything except the integer `0` (and `False`, which Python compares equal
to `0`) counts as non-zero. -/
def pyNeZero : Json → Bool
  | .num n => n ≠ 0
  | .bool b => b
  | _ => true

/-- The error-envelope check duplicated inline after every successful
non-streaming response in the source (client.py lines 116-121, 153-158,
187-191, 226-230, 281-285): read `error_code` defaulting to `0`, and raise
carrying the code and `error_msg` (defaulting to `"Unknown error"`) when the
code is non-zero; otherwise hand the parsed envelope back unchanged. -/
def envelopeCheck (response : Json) : Except WenxinError Json :=
  let error_code := (response.get ("error_code")).getD (.num 0)
  if pyNeZero error_code then
    .error (.provider error_code ((response.get ("error_msg")).getD (.str "Unknown error")))
  else .ok response

/-- The response tail shared verbatim by every non-streaming call in the
source (`completion`, `acompletion`, `embed`): `r.raise_for_status()`, then
`r.json()`, then the inline error-envelope check. -/
def postEnvelope (resp : HttpResponse) : Except WenxinError Json :=
  if statusError resp.status then .error (.http resp.status)
  else
    match jsonParse resp.body with
    | none => .error .jsonDecode
    | some response => envelopeCheck response

/-- One network request issued by the client, in issue order. -/
inductive NetCall where
  | tokenGrant
  | postCompletion (url : String) (messages : List Message)
  | postEmbeddings (url : String) (input : List String)

/-- Outcome of a non-streaming operation: client state afterwards, the
network requests issued (in order), and the returned envelope or the
exception raised. -/
structure CallResult where
  state : TokenState
  calls : List NetCall
  result : Except WenxinError Json

/-- `WenxinClient.completion` (client.py lines 93-122): build the message
list, resolve the URL, obtain a token (`grantResp` is what the token
endpoint would answer), POST with `stream=False` (`postResp` is the
completion endpoint answer), `raise_for_status`, parse the body, and apply
the error-envelope check. -/
def completion (st : TokenState) (now : Int) (model prompt : String)
    (history : List (String × String)) (grantResp postResp : HttpResponse) : CallResult :=
  let messages := construct_message prompt history
  let url := completions_url model
  let g := grant_token st now grantResp
  let grantCalls := if g.networkCalled then [NetCall.tokenGrant] else []
  match g.result with
  | .error e => ⟨g.state, grantCalls, .error e⟩
  | .ok _ => ⟨g.state, grantCalls ++ [NetCall.postCompletion url messages], postEnvelope postResp⟩

/-- `WenxinClient.acompletion` (client.py lines 124-159): the non-blocking
variant of `completion`, same request shape and envelope handling over
`aiohttp`, with the token taken from `async_grant_token`. -/
def acompletion (st : TokenState) (now : Int) (model prompt : String)
    (history : List (String × String)) (grantResp postResp : HttpResponse) : CallResult :=
  let messages := construct_message prompt history
  let url := completions_url model
  let g := async_grant_token st now grantResp
  let grantCalls := if g.networkCalled then [NetCall.tokenGrant] else []
  match g.result with
  | .error e => ⟨g.state, grantCalls, .error e⟩
  | .ok _ => ⟨g.state, grantCalls ++ [NetCall.postCompletion url messages], postEnvelope postResp⟩

/-- Python `t[:n]` on a string: the first `n` characters (code points). -/
def pyTake (n : Nat) (t : String) : String := String.mk (t.data.take n)

/-- Python `t[-n:]` on a string (for `n > 0`): the last `n` characters. -/
def pyTakeRight (n : Nat) (t : String) : String := String.mk (t.data.drop (t.data.length - n))

/-- The `sentences` loop of `WenxinClient.embed` (client.py lines 259-269):
per text, mode `"START"` keeps `t[-384:]`, mode `"END"` keeps `t[:384]`, any
other mode (including `None`) keeps `t` unchanged but raises a `ValueError`
as soon as a text longer than 384 characters is met. -/
def truncateSentences (truncate : Option String) : List String → Except WenxinError (List String)
  | [] => .ok []
  | t :: ts =>
    if truncate = some "START" then
      (truncateSentences truncate ts).map fun rest => pyTakeRight 384 t :: rest
    else if truncate = some "END" then
      (truncateSentences truncate ts).map fun rest => pyTake 384 t :: rest
    else if 384 < t.length then
      .error (.validation ("input text length " ++ toString t.length ++ " is greater than 384."))
    else
      (truncateSentences truncate ts).map fun rest => t :: rest

/-- `WenxinClient.embed` (client.py lines 251-287): batch-size check, the
`sentences` truncation loop, then token grant, POST of `{"input": sentences}`
to the embeddings URL, `raise_for_status`, body parse, and the
error-envelope check.  Both `ValueError`s fire before any network request is
issued. -/
def embed (st : TokenState) (now : Int) (model : String) (texts : List String)
    (truncate : Option String) (grantResp postResp : HttpResponse) : CallResult :=
  let url := WENXIN_EMBEDDINGS_URL model
  if 16 < texts.length then
    ⟨st, [], .error (.validation ("texts batch_size must less than 16."))⟩
  else
    match truncateSentences truncate texts with
    | .error e => ⟨st, [], .error e⟩
    | .ok sentences =>
      let g := grant_token st now grantResp
      let grantCalls := if g.networkCalled then [NetCall.tokenGrant] else []
      match g.result with
      | .error e => ⟨g.state, grantCalls, .error e⟩
      | .ok _ => ⟨g.state, grantCalls ++ [NetCall.postEmbeddings url sentences], postEnvelope postResp⟩

/-- Bytes of a string, for the raw chunked response body (the streaming
payloads here are ASCII, one byte per character). -/
def asciiBytes (s : String) : List Nat := s.data.map Char.toNat

/-- Python `bytes.decode("utf-8")`, modelled on the ASCII plane (each byte
is one character; the streaming payloads contain no multi-byte
sequences). -/
def utf8Decode (bs : List Nat) : String := String.mk (bs.map Char.ofNat)

/-- A streaming HTTP response: status, `Content-Type` header, and the body
as the chunk sequence the transport delivers; `r.json()` on such a response
parses the concatenation of all chunks. -/
structure StreamHttpResponse where
  status : Nat
  contentType : String
  chunks : List (List Nat)

/-- How a Python generator run plays out for its consumer: the events it
yielded, and either normal termination (`ok`, with the `StopIteration`
value for a bare `return value` — which a `for` loop discards) or an
exception after the listed events (`err`). -/
inductive GenResult where
  | ok (events : List Json) (ret : Option Json)
  | err (events : List Json) (error : WenxinError)

/-- The events a consumer iterating the generator observes. -/
def GenResult.events : GenResult → List Json
  | .ok es _ => es
  | .err es _ => es

/-- Prepend one yielded event to the rest of a generator run. -/
def GenResult.prepend (j : Json) : GenResult → GenResult
  | .ok es r => .ok (j :: es) r
  | .err es e => .err (j :: es) e

/-- Python `data.endswith((b"\r\r", b"\n\n", b"\r\n\r\n"))` — the frame
terminators of the manual reframing loop (`\r` is byte 13, `\n` is 10). -/
def endsWithTerm (data : List Nat) : Bool :=
  [13, 13].isSuffixOf data || [10, 10].isSuffixOf data || [13, 10, 13, 10].isSuffixOf data

/-- The inner `read` coroutine of `WenxinClient.acompletion_stream`
(client.py lines 233-241), as a function of the delivered chunk sequence:
accumulate chunks into `data`, emit `data` as one frame and reset whenever
it ends with a frame terminator, and emit any residual bytes as a final
frame when the stream closes. -/
def readAux (data : List Nat) : List (List Nat) → List (List Nat)
  | [] => if data.isEmpty then [] else [data]
  | chunk :: rest =>
    if endsWithTerm (data ++ chunk) then (data ++ chunk) :: readAux [] rest
    else readAux (data ++ chunk) rest

/-- `read(r.content)` started with an empty buffer, as in the source. -/
def read (chunks : List (List Nat)) : List (List Nat) := readAux [] chunks

/-- The frame-consuming loop of `WenxinClient.acompletion_stream`
(client.py lines 243-249): decode each frame, discard it unless it starts
with `data:`, strip the remainder, parse it as JSON with `json.loads`
(raising on invalid JSON), and yield the parsed object. -/
def sseDataEvents : List (List Nat) → GenResult
  | [] => .ok [] none
  | frame :: rest =>
    let line_decoded := utf8Decode frame
    if !line_decoded.startsWith ("data:") then sseDataEvents rest
    else
      match jsonParse (line_decoded.drop 5).trim with
      | none => .err [] .jsonDecode
      | some data => (sseDataEvents rest).prepend data

/-- Lines of an SSE body (splitting on newlines, tolerating `\r\n`). -/
def sseLines (s : String) : List String :=
  (s.splitOn ("\n")).map fun l => if l.endsWith ("\r") then l.dropRight 1 else l

/-- Grouping of SSE lines into records at blank-line separators. -/
def sseGroup (acc : List String) : List String → List (List String)
  | [] => [acc.reverse]
  | "" :: rest => acc.reverse :: sseGroup [] rest
  | l :: rest => sseGroup (l :: acc) rest

/-- Value of one SSE field line after its `data:` name: the rest of the
line, minus a single leading space (SSE conventions). -/
def sseFieldValue (l : String) : String :=
  let v := l.drop 5
  if v.startsWith (" ") then v.drop 1 else v

/-- Modelled from the external `sseclient` library used by the blocking
streaming path (spec section 4.5, buffered-library mode — the library is
not part of this repository): records are separated by blank lines, a
record's data is its `data:` lines joined with newlines, and only records
with non-empty data are dispatched as events. -/
def sseclientEvents (body : String) : List String :=
  (((sseGroup [] (sseLines body)).map fun lines =>
      String.intercalate "\n" ((lines.filter fun l => l.startsWith ("data:")).map sseFieldValue)).filter
    fun d => d ≠ "")

/-- The event loop of `WenxinClient.completion_stream` (client.py lines
194-197): `json.loads` each dispatched record's data and yield it. -/
def sseJsonLoop : List String → GenResult
  | [] => .ok [] none
  | d :: rest =>
    match jsonParse d with
    | none => .err [] .jsonDecode
    | some data => (sseJsonLoop rest).prepend data

/-- `WenxinClient.completion_stream` (client.py lines 161-197): a Python
generator.  After token grant, POST with `stream=True` and
`raise_for_status`, a response whose `Content-Type` does not start with
`text/event-stream` is parsed as a single JSON envelope and error-checked;
on a clean envelope the source then executes `return response` — inside a
generator this terminates the iteration with the envelope as the
`StopIteration` value and yields nothing.  Otherwise the body is handed to
`sseclient.SSEClient` and each event's data is parsed and yielded. -/
def completion_stream (st : TokenState) (now : Int) (model prompt : String)
    (history : List (String × String)) (grantResp : HttpResponse)
    (resp : StreamHttpResponse) : TokenState × List NetCall × GenResult :=
  let messages := construct_message prompt history
  let url := completions_url model
  let g := grant_token st now grantResp
  let grantCalls := if g.networkCalled then [NetCall.tokenGrant] else []
  match g.result with
  | .error e => (g.state, grantCalls, .err [] e)
  | .ok _ =>
    let calls := grantCalls ++ [NetCall.postCompletion url messages]
    if statusError resp.status then (g.state, calls, .err [] (.http resp.status))
    else if !resp.contentType.startsWith ("text/event-stream") then
      match jsonParse (utf8Decode resp.chunks.flatten) with
      | none => (g.state, calls, .err [] .jsonDecode)
      | some response =>
        match envelopeCheck response with
        | .error e => (g.state, calls, .err [] e)
        | .ok r => (g.state, calls, .ok [] (some r))
    else (g.state, calls, sseJsonLoop (sseclientEvents (utf8Decode resp.chunks.flatten)))

/-- `WenxinClient.acompletion_stream` (client.py lines 199-249): the
non-blocking streaming path.  The same pre-stream checks as the blocking
path run first; on a non-event-stream response with a clean envelope the
envelope is yielded once, after which control falls through to the manual
reframing loop — but `await r.json()` has already consumed the `aiohttp`
stream, so `read` iterates an exhausted content stream (no chunks) and
produces nothing further.  On an event-stream response the reframing loop
processes the delivered chunks. -/
def acompletion_stream (st : TokenState) (now : Int) (model prompt : String)
    (history : List (String × String)) (grantResp : HttpResponse)
    (resp : StreamHttpResponse) : TokenState × List NetCall × GenResult :=
  let messages := construct_message prompt history
  let url := completions_url model
  let g := async_grant_token st now grantResp
  let grantCalls := if g.networkCalled then [NetCall.tokenGrant] else []
  match g.result with
  | .error e => (g.state, grantCalls, .err [] e)
  | .ok _ =>
    let calls := grantCalls ++ [NetCall.postCompletion url messages]
    if statusError resp.status then (g.state, calls, .err [] (.http resp.status))
    else if !resp.contentType.startsWith ("text/event-stream") then
      match jsonParse (utf8Decode resp.chunks.flatten) with
      | none => (g.state, calls, .err [] .jsonDecode)
      | some response =>
        match envelopeCheck response with
        | .error e => (g.state, calls, .err [] e)
        | .ok r => (g.state, calls, (sseDataEvents (read [])).prepend r)
    else (g.state, calls, sseDataEvents (read resp.chunks))

/-- Discriminator for the `ValueError`s of `embed` among the failure
kinds. -/
def isValidationFailure {α : Type} : Except WenxinError α → Bool
  | .error (.validation _) => true
  | _ => false

/-- The raw byte sequence of the reframing scenario: the SSE frame bytes of
the text `data:` space `\x7b"a":1\x7d` followed by the `\n\n` terminator
(15 bytes). -/
def c3Target : List Nat := asciiBytes ("data: \x7b\"a\":1\x7d\n\n")

/- ------------------------------------------------------------------ -/
/- Theorems                                                           -/
/- ------------------------------------------------------------------ -/

lemma isValidationFailure_map (x : Except WenxinError (List String))
    (f : List String → List String) : isValidationFailure (x.map f) = isValidationFailure x := by
  cases x with
  | error e => cases e <;> rfl
  | ok v => rfl

lemma truncate_start (texts : List String) :
    truncateSentences (some "START") texts = .ok (texts.map (pyTakeRight 384)) := by
  induction texts with
  | nil => rfl
  | cons t ts ih => simp [truncateSentences, ih, Except.map]

lemma truncate_end (texts : List String) :
    truncateSentences (some "END") texts = .ok (texts.map (pyTake 384)) := by
  induction texts with
  | nil => rfl
  | cons t ts ih => simp [truncateSentences, ih, Except.map]

lemma truncate_other_validation (truncate : Option String)
    (h1 : truncate ≠ some "START") (h2 : truncate ≠ some "END") (texts : List String) :
    isValidationFailure (truncateSentences truncate texts) =
      (texts.any fun t => 384 < t.length) := by
  induction texts with
  | nil => simp [truncateSentences, isValidationFailure]
  | cons t ts ih =>
    simp only [truncateSentences, if_neg h1, if_neg h2, List.any_cons]
    by_cases hl : 384 < t.length
    · simp [hl, isValidationFailure]
    · simp [hl, isValidationFailure_map, ih]

lemma truncate_other_ok (truncate : Option String)
    (h1 : truncate ≠ some "START") (h2 : truncate ≠ some "END") (texts : List String)
    (hall : ∀ t ∈ texts, t.length ≤ 384) :
    truncateSentences truncate texts = .ok texts := by
  induction texts with
  | nil => rfl
  | cons t ts ih =>
    have ht : ¬ 384 < t.length := by
      have := hall t (by simp)
      omega
    simp only [truncateSentences, if_neg h1, if_neg h2, if_neg ht]
    rw [ih fun x hx => hall x (by simp [hx])]
    rfl

lemma grant_token_not_validation (st : TokenState) (now : Int) (resp : HttpResponse)
    (m : String) : (grant_token st now resp).result ≠ .error (.validation m) := by
  unfold grant_token
  split
  · simp
  · split
    · simp
    · split
      · simp
      · split
        · simp
        · split <;> simp

lemma envelopeCheck_not_validation (response : Json) (m : String) :
    envelopeCheck response ≠ .error (.validation m) := by
  simp only [envelopeCheck]
  split <;> simp

lemma postEnvelope_not_validation (resp : HttpResponse) (m : String) :
    postEnvelope resp ≠ .error (.validation m) := by
  unfold postEnvelope
  split
  · simp
  · split
    · simp
    · exact envelopeCheck_not_validation _ m

/-- Claim C7: for every texts list with more than 16 entries, `embed` fails
with the batch-size `ValueError` with no network request issued and no
other side effect (the state is unchanged); and whenever `embed` fails
with any validation error, its network-call trace is empty, so no network
call is ever preceded by a failed validation. -/
theorem embed_batch_limit_fail_fast (st : TokenState) (now : Int) (model : String)
    (texts : List String) (truncate : Option String) (gResp postResp : HttpResponse) :
    (16 < texts.length →
      embed st now model texts truncate gResp postResp =
        ⟨st, [], .error (.validation ("texts batch_size must less than 16."))⟩) ∧
    (∀ m, (embed st now model texts truncate gResp postResp).result =
        .error (.validation m) →
      (embed st now model texts truncate gResp postResp).calls = []) := by
  constructor
  · intro h
    unfold embed
    rw [if_pos h]
  · intro m
    by_cases hb : 16 < texts.length
    · intro _
      simp [embed, if_pos hb]
    · rcases hsent : truncateSentences truncate texts with e | sentences
      · intro _
        simp [embed, if_neg hb, hsent]
      · rcases hg : (grant_token st now gResp).result with e | tok
        · simp only [embed, if_neg hb, hsent, hg]
          intro h
          rw [show e = WenxinError.validation m by injection h] at hg
          exact absurd hg (grant_token_not_validation st now gResp m)
        · simp only [embed, if_neg hb, hsent, hg]
          intro h
          exact absurd h (postEnvelope_not_validation postResp m)

/-- Witness for C7 on a 17-element batch. -/
theorem embed_batch_limit_fail_fast_witness :
    embed initialTokenState 0 ("embedding-v1") (List.replicate 17 "x") none
        ⟨200, "", ""⟩ ⟨200, "", ""⟩ =
      ⟨initialTokenState, [], .error (.validation ("texts batch_size must less than 16."))⟩ :=
  (embed_batch_limit_fail_fast initialTokenState 0 ("embedding-v1") (List.replicate 17 "x")
    none ⟨200, "", ""⟩ ⟨200, "", ""⟩).1 (by simp)

/-- Claim C6: for every embedding input list within the batch limit, mode
`START` replaces each text by its last 384 characters (`t[-384:]`), mode
`END` by its first 384 characters (`t[:384]`); with the mode unset or any
other value the call fails with a validation error exactly when some text
exceeds 384 characters and otherwise keeps every text unchanged; a
truncation failure aborts `embed` before any network call, and on success
the (possibly truncated) sentences are exactly the payload of the
embeddings POST. -/
theorem embed_truncation_policy (st : TokenState) (now : Int) (model : String)
    (texts : List String) (truncate : Option String) (gResp postResp : HttpResponse)
    (hbatch : texts.length ≤ 16) :
    (truncate = some "START" →
      truncateSentences truncate texts = .ok (texts.map (pyTakeRight 384))) ∧
    (truncate = some "END" →
      truncateSentences truncate texts = .ok (texts.map (pyTake 384))) ∧
    (truncate ≠ some "START" → truncate ≠ some "END" →
      isValidationFailure (truncateSentences truncate texts) =
        (texts.any fun t => 384 < t.length) ∧
      ((∀ t ∈ texts, t.length ≤ 384) → truncateSentences truncate texts = .ok texts)) ∧
    (∀ e, truncateSentences truncate texts = .error e →
      embed st now model texts truncate gResp postResp = ⟨st, [], .error e⟩) ∧
    (∀ sentences tok, truncateSentences truncate texts = .ok sentences →
      (grant_token st now gResp).result = .ok tok →
      NetCall.postEmbeddings (WENXIN_EMBEDDINGS_URL model) sentences ∈
        (embed st now model texts truncate gResp postResp).calls) := by
  have hb : ¬ 16 < texts.length := by omega
  refine ⟨?_, ?_, ?_, ?_, ?_⟩
  · intro h
    subst h
    exact truncate_start texts
  · intro h
    subst h
    exact truncate_end texts
  · intro h1 h2
    exact ⟨truncate_other_validation truncate h1 h2 texts,
      fun hall => truncate_other_ok truncate h1 h2 texts hall⟩
  · intro e he
    simp [embed, if_neg hb, he]
  · intro sentences tok hsent hg
    simp only [embed, if_neg hb, hsent, hg]
    simp

set_option maxRecDepth 16384 in
/-- Witness for C6 on a 400-character text under each mode. -/
theorem embed_truncation_policy_witness :
    truncateSentences (some "START") [String.mk (List.replicate 400 'a')] =
      .ok [String.mk (List.replicate 384 'a')] ∧
    truncateSentences (some "END") [String.mk (List.replicate 400 'a')] =
      .ok [String.mk (List.replicate 384 'a')] ∧
    isValidationFailure (truncateSentences none [String.mk (List.replicate 400 'a')]) = true := by
  have h := embed_truncation_policy initialTokenState 0 ("m")
    [String.mk (List.replicate 400 'a')] (some "START") ⟨200, "", ""⟩ ⟨200, "", ""⟩ (by simp)
  have h2 := embed_truncation_policy initialTokenState 0 ("m")
    [String.mk (List.replicate 400 'a')] (some "END") ⟨200, "", ""⟩ ⟨200, "", ""⟩ (by simp)
  have h3 := embed_truncation_policy initialTokenState 0 ("m")
    [String.mk (List.replicate 400 'a')] none ⟨200, "", ""⟩ ⟨200, "", ""⟩ (by simp)
  refine ⟨?_, ?_, ?_⟩
  · rw [h.1 rfl]
    rfl
  · rw [h2.2.1 rfl]
    rfl
  · rw [(h3.2.2.1 (by simp) (by simp)).1]
    rfl

/-- Claim C10: both embedding validation limits are strict, so a call with
exactly 16 texts of exactly 384 characters each and no truncate mode
passes both checks: the truncation loop returns the texts unchanged, the
result is never a validation failure, and (once the token grant succeeds)
the texts are sent unchanged as the POST payload. -/
theorem embed_boundary_acceptance (st : TokenState) (now : Int) (model : String)
    (texts : List String) (gResp postResp : HttpResponse)
    (hlen : texts.length = 16) (hchars : ∀ t ∈ texts, t.length = 384) :
    truncateSentences none texts = .ok texts ∧
    isValidationFailure (embed st now model texts none gResp postResp).result = false ∧
    (∀ tok, (grant_token st now gResp).result = .ok tok →
      NetCall.postEmbeddings (WENXIN_EMBEDDINGS_URL model) texts ∈
        (embed st now model texts none gResp postResp).calls) := by
  have hb : ¬ 16 < texts.length := by omega
  have hok : truncateSentences none texts = .ok texts :=
    truncate_other_ok none (by simp) (by simp) texts fun t ht => le_of_eq (hchars t ht)
  refine ⟨hok, ?_, ?_⟩
  · rcases hg : (grant_token st now gResp).result with e | tok
    · simp only [embed, if_neg hb, hok, hg]
      have := grant_token_not_validation st now gResp
      cases e <;> simp_all [isValidationFailure]
    · simp only [embed, if_neg hb, hok, hg]
      rcases hp : postEnvelope postResp with e | v
      · have := postEnvelope_not_validation postResp
        cases e <;> simp_all [isValidationFailure]
      · simp [isValidationFailure]
  · intro tok hg
    simp only [embed, if_neg hb, hok, hg]
    simp

set_option maxRecDepth 32768 in
/-- Witness for C10 at the exact boundary input. -/
theorem embed_boundary_acceptance_witness :
    truncateSentences none (List.replicate 16 (String.mk (List.replicate 384 'a'))) =
      .ok (List.replicate 16 (String.mk (List.replicate 384 'a'))) ∧
    isValidationFailure (embed ⟨.str "t", 10⟩ 0 ("embedding-v1")
        (List.replicate 16 (String.mk (List.replicate 384 'a'))) none
        ⟨200, "", ""⟩ ⟨200, "", ""⟩).result = false ∧
    NetCall.postEmbeddings (WENXIN_EMBEDDINGS_URL ("embedding-v1"))
        (List.replicate 16 (String.mk (List.replicate 384 'a'))) ∈
      (embed ⟨.str "t", 10⟩ 0 ("embedding-v1")
        (List.replicate 16 (String.mk (List.replicate 384 'a'))) none
        ⟨200, "", ""⟩ ⟨200, "", ""⟩).calls := by
  have h := embed_boundary_acceptance ⟨.str "t", 10⟩ 0 ("embedding-v1")
    (List.replicate 16 (String.mk (List.replicate 384 'a'))) ⟨200, "", ""⟩ ⟨200, "", ""⟩
    (by simp)
    (by
      intro t ht
      rw [List.eq_of_mem_replicate ht]
      show (List.replicate 384 'a').length = 384
      simp)
  exact ⟨h.1, h.2.1, h.2.2 (.str "t") rfl⟩

/-- The blocking and non-blocking token-grant operations implement the
same state transformation (their source bodies differ only in transport
library). -/
lemma async_grant_token_eq (st : TokenState) (now : Int) (resp : HttpResponse) :
    async_grant_token st now resp = grant_token st now resp := rfl

/-- Claim C9: the endpoint resolver is a pure total function: `eb-instant`
and `ernie-bot-turbo` map to the fast-tier segment `eb-instant`, `wenxin`
and `ernie-bot` map to the default-tier segment `completions`, and any
other model name is used verbatim as the endpoint segment of the fixed
chat URL template; no input is rejected (the resolver is total by
construction). -/
theorem completions_url_resolution (model : String) :
    ((model = "eb-instant" ∨ model = "ernie-bot-turbo") →
      completions_url model = WENXIN_CHAT_URL ("eb-instant")) ∧
    ((model = "wenxin" ∨ model = "ernie-bot") →
      completions_url model = WENXIN_CHAT_URL ("completions")) ∧
    (model ≠ "eb-instant" → model ≠ "ernie-bot-turbo" → model ≠ "wenxin" → model ≠ "ernie-bot" →
      completions_url model = WENXIN_CHAT_URL model) := by
  refine ⟨fun h => ?_, fun h => ?_, fun h1 h2 h3 h4 => ?_⟩
  · rw [completions_url, if_pos h]
  · rcases h with h | h <;> subst h <;> rfl
  · rw [completions_url, if_neg (by tauto), if_neg (by tauto)]

/-- Witness for C9 at three concrete model names, one per branch. -/
theorem completions_url_resolution_witness :
    completions_url ("ernie-bot-turbo") = WENXIN_CHAT_URL ("eb-instant") ∧
    completions_url ("wenxin") = WENXIN_CHAT_URL ("completions") ∧
    completions_url ("my-custom-endpoint") = WENXIN_CHAT_URL ("my-custom-endpoint") :=
  ⟨(completions_url_resolution _).1 (Or.inr rfl),
   (completions_url_resolution _).2.1 (Or.inl rfl),
   (completions_url_resolution _).2.2 (by decide) (by decide) (by decide) (by decide)⟩

/-- Length of the constructed message list. -/
lemma construct_message_length (prompt : String) (history : List (String × String)) :
    (construct_message prompt history).length = 2 * history.length + 1 := by
  induction history with
  | nil => rfl
  | cons p rest ih =>
    obtain ⟨h, a⟩ := p
    simp only [construct_message, List.length_cons, ih]
    omega

/-- The two messages contributed by the history pair at index `i`. -/
lemma construct_message_get_pair (prompt : String) :
    ∀ (history : List (String × String)) (i : Nat) (hi : i < history.length),
      (construct_message prompt history)[2 * i]? =
        some ⟨Role.user, (history.get ⟨i, hi⟩).1⟩ ∧
      (construct_message prompt history)[2 * i + 1]? =
        some ⟨Role.assistant, (history.get ⟨i, hi⟩).2⟩
  | [], i, hi => absurd hi (by simp)
  | (h, a) :: rest, 0, _ => by simp [construct_message]
  | (h, a) :: rest, i + 1, hi => by
    have ih := construct_message_get_pair prompt rest i (by simpa using hi)
    have e1 : 2 * (i + 1) = 2 * i + 1 + 1 := by omega
    have e2 : 2 * (i + 1) + 1 = 2 * i + 1 + 1 + 1 := by omega
    simp only [construct_message, e1, e2, List.getElem?_cons_succ]
    exact ⟨ih.1, by simpa using ih.2⟩

/-- The final message is the live prompt as a user message. -/
lemma construct_message_get_last (prompt : String) :
    ∀ (history : List (String × String)),
      (construct_message prompt history)[2 * history.length]? = some ⟨Role.user, prompt⟩
  | [] => rfl
  | (h, a) :: rest => by
    have ih := construct_message_get_last prompt rest
    have e1 : 2 * (rest.length + 1) = 2 * rest.length + 1 + 1 := by omega
    simp only [construct_message, List.length_cons, e1, List.getElem?_cons_succ]
    exact ih

/-- Claim C5: for every history of n pairs and every prompt,
`construct_message` returns exactly 2n+1 messages; position 2i is a user
message with the i-th human text, position 2i+1 an assistant message with
the i-th ai text, and the final position 2n holds the prompt as a user
message.  Determinism and purity hold by construction (the model is a
Lean function of its arguments alone, exactly like the static source
method). -/
theorem construct_message_shape (prompt : String) (history : List (String × String)) :
    (construct_message prompt history).length = 2 * history.length + 1 ∧
    (∀ i (hi : i < history.length),
      (construct_message prompt history)[2 * i]? =
        some ⟨Role.user, (history.get ⟨i, hi⟩).1⟩ ∧
      (construct_message prompt history)[2 * i + 1]? =
        some ⟨Role.assistant, (history.get ⟨i, hi⟩).2⟩) ∧
    (construct_message prompt history)[2 * history.length]? = some ⟨Role.user, prompt⟩ :=
  ⟨construct_message_length prompt history,
   fun i hi => construct_message_get_pair prompt history i hi,
   construct_message_get_last prompt history⟩

/-- Witness for C5 on a two-pair history. -/
theorem construct_message_shape_witness :
    (construct_message ("p") ([("h1", "a1"), ("h2", "a2")])).length = 5 ∧
    (construct_message ("p") ([("h1", "a1"), ("h2", "a2")]))[2]? =
      some ⟨Role.user, "h2"⟩ ∧
    (construct_message ("p") ([("h1", "a1"), ("h2", "a2")]))[3]? =
      some ⟨Role.assistant, "a2"⟩ ∧
    (construct_message ("p") ([("h1", "a1"), ("h2", "a2")]))[4]? =
      some ⟨Role.user, "p"⟩ := by
  have h := construct_message_shape ("p") ([("h1", "a1"), ("h2", "a2")])
  exact ⟨h.1, (h.2.1 1 (by decide)).1, (h.2.1 1 (by decide)).2, h.2.2⟩

lemma postEnvelope_2xx (resp : HttpResponse) (env : Json)
    (hstatus : resp.status < 400) (hbody : jsonParse resp.body = some env) :
    postEnvelope resp = envelopeCheck env := by
  have hs : statusError resp.status = false := by
    simp [statusError]
    omega
  simp [postEnvelope, hs, hbody]

/-- Claim C4: for every non-streaming completion call (blocking or
non-blocking) and every embedding call whose HTTP status is 2xx and whose
body parses as JSON, the call fails with a provider error carrying the
envelope error code and error message exactly when `error_code` is present
and non-zero (`response.get("error_code", 0)`: an absent code counts as 0;
`error_msg` defaults to `"Unknown error"`), and otherwise returns the
parsed envelope unchanged.  For the embedding call the preconditions that
make it reach the transport (batch within limit, truncation loop
succeeding) are hypotheses. -/
theorem envelope_error_discipline (st : TokenState) (now : Int)
    (model prompt : String) (history : List (String × String)) (texts : List String)
    (truncate : Option String) (gResp postResp : HttpResponse) (tok env : Json)
    (hgrant : (grant_token st now gResp).result = .ok tok)
    (hstatus : 200 ≤ postResp.status ∧ postResp.status < 300)
    (hbody : jsonParse postResp.body = some env) :
    ((completion st now model prompt history gResp postResp).result =
      if pyNeZero ((env.get ("error_code")).getD (.num 0)) then
        .error (.provider ((env.get ("error_code")).getD (.num 0))
          ((env.get ("error_msg")).getD (.str "Unknown error")))
      else .ok env) ∧
    ((acompletion st now model prompt history gResp postResp).result =
      if pyNeZero ((env.get ("error_code")).getD (.num 0)) then
        .error (.provider ((env.get ("error_code")).getD (.num 0))
          ((env.get ("error_msg")).getD (.str "Unknown error")))
      else .ok env) ∧
    (texts.length ≤ 16 → ∀ sentences, truncateSentences truncate texts = .ok sentences →
      (embed st now model texts truncate gResp postResp).result =
        if pyNeZero ((env.get ("error_code")).getD (.num 0)) then
          .error (.provider ((env.get ("error_code")).getD (.num 0))
            ((env.get ("error_msg")).getD (.str "Unknown error")))
        else .ok env) := by
  have hpost : postEnvelope postResp = envelopeCheck env :=
    postEnvelope_2xx postResp env (by omega) hbody
  have henv : envelopeCheck env =
      if pyNeZero ((env.get ("error_code")).getD (.num 0)) then
        .error (.provider ((env.get ("error_code")).getD (.num 0))
          ((env.get ("error_msg")).getD (.str "Unknown error")))
      else .ok env := rfl
  refine ⟨?_, ?_, ?_⟩
  · simp only [completion, hgrant]
    rw [hpost, henv]
  · simp only [acompletion, async_grant_token_eq, hgrant]
    rw [hpost, henv]
  · intro hlen sentences hsent
    have hb : ¬ 16 < texts.length := by omega
    simp only [embed, if_neg hb, hsent, hgrant]
    rw [hpost, henv]

/-- Witness for C4: a provider error envelope with code 17 and message
quota makes the blocking completion fail with exactly that provider
error, while a clean envelope is returned unchanged. -/
theorem envelope_error_discipline_witness :
    (completion ⟨.str "t", 10⟩ 0 ("ernie-bot") ("p") ([]) ⟨200, "", ""⟩
        ⟨200, "application/json",
          "\x7b\"error_code\": 17, \"error_msg\": \"quota\"\x7d"⟩).result =
      .error (.provider (.num 17) (.str "quota")) ∧
    (acompletion ⟨.str "t", 10⟩ 0 ("ernie-bot") ("p") ([]) ⟨200, "", ""⟩
        ⟨200, "application/json", "\x7b\"result\": \"ok\"\x7d"⟩).result =
      .ok (.obj [("result", .str "ok")]) := by
  have h1 := envelope_error_discipline ⟨.str "t", 10⟩ 0 ("ernie-bot") ("p") ([]) ([]) none
    ⟨200, "", ""⟩ ⟨200, "application/json",
      "\x7b\"error_code\": 17, \"error_msg\": \"quota\"\x7d"⟩
    (.str "t") (.obj [("error_code", .num 17), ("error_msg", .str "quota")])
    rfl ⟨by decide, by decide⟩ rfl
  have h2 := envelope_error_discipline ⟨.str "t", 10⟩ 0 ("ernie-bot") ("p") ([]) ([]) none
    ⟨200, "", ""⟩ ⟨200, "application/json", "\x7b\"result\": \"ok\"\x7d"⟩
    (.str "t") (.obj [("result", .str "ok")])
    rfl ⟨by decide, by decide⟩ rfl
  constructor
  · rw [h1.1]
    rfl
  · rw [h2.2.1]
    rfl

lemma grant_token_ok_access (st : TokenState) (now : Int) (resp : HttpResponse) (tok : Json)
    (h : (grant_token st now resp).result = .ok tok) :
    (grant_token st now resp).state.access_token = tok := by
  revert h
  unfold grant_token
  split
  · intro h
    simp_all
  · split
    · intro h
      simp_all
    · split
      · intro h
        simp_all
      · split
        · intro h
          simp_all
        · split <;> intro h <;> simp_all

lemma grant_token_cache_hit (st : TokenState) (now : Int) (resp : HttpResponse)
    (h1 : pyTruthy st.access_token = true) (h2 : now < st.access_token_expires) :
    grant_token st now resp = ⟨st, .ok st.access_token, false⟩ := by
  unfold grant_token
  rw [if_pos ⟨h1, h2⟩]

/-- Claim C2 counterexample: a successful-status grant response whose JSON
body has `access_token` but no `expires_in` makes `grant_token` raise a
`KeyError` after `self.access_token` has already been overwritten: the
grant fails, yet the token value does not retain its prior value (only the
expiry does) — a partial update. -/
theorem grant_token_partial_update_cex :
    grant_token ⟨.str "old-token", 0⟩ 5 ⟨200, "", "\x7b\"access_token\": \"new-token\"\x7d"⟩ =
      ⟨⟨.str "new-token", 0⟩, .error (.keyError ("expires_in")), true⟩ ∧
    Json.str "new-token" ≠ Json.str "old-token" := by
  constructor
  · rfl
  · intro h
    injection h with h2
    simp at h2

/-- Claim C2 (amended): the cached token is mutated only by the grant
operations, and on every successful grant both fields are replaced
together: either the cache was valid and the state is returned untouched,
or the whole state becomes `⟨tok, now + expires_in⟩` exactly as parsed
from the grant body.  On any failure the expiry retains its prior value,
and every failure other than a body carrying `access_token` with a
missing or non-integer `expires_in` leaves the state fully unchanged; in
that one case the failing grant has already replaced the token value
(`keyError "expires_in"` / `typeError`) — the partial update of the
counterexample.  Blocking and non-blocking grants behave identically. -/
theorem grant_token_mutation_discipline (st : TokenState) (now : Int) (resp : HttpResponse) :
    async_grant_token st now resp = grant_token st now resp ∧
    (∀ tok, (grant_token st now resp).result = .ok tok →
      (grant_token st now resp).state.access_token = tok ∧
      ((grant_token st now resp).state = st ∨
        ∃ env n, jsonParse resp.body = some env ∧
          env.get ("access_token") = some tok ∧
          env.get ("expires_in") = some (.num n) ∧
          (grant_token st now resp).state = ⟨tok, now + n⟩)) ∧
    (∀ e, (grant_token st now resp).result = .error e →
      (grant_token st now resp).state.access_token_expires = st.access_token_expires ∧
      (e = .keyError ("expires_in") ∨ e = .typeError ∨ (grant_token st now resp).state = st)) := by
  refine ⟨async_grant_token_eq st now resp, fun tok => ?_, fun e => ?_⟩
  · unfold grant_token
    split
    · intro h
      have htok : st.access_token = tok := by simpa using h
      exact ⟨htok, Or.inl rfl⟩
    · split
      · intro h
        simp at h
      · split
        · intro h
          simp at h
        · rename_i response hjson
          split
          · intro h
            simp at h
          · rename_i tokP htokP
            split
            · intro h
              simp at h
            · rename_i n hexp
              intro h
              have htok : tokP = tok := by simpa using h
              subst htok
              exact ⟨rfl, Or.inr ⟨response, n, hjson, htokP, hexp, rfl⟩⟩
            · intro h
              simp at h
  · unfold grant_token
    split
    · intro h
      simp_all
    · split
      · intro h
        simp_all
      · split
        · intro h
          simp_all
        · split
          · intro h
            simp_all
          · split <;> intro h <;> simp_all

/-- Witness for C2 (amended): a non-2xx grant response leaves the expiry
(and whole state) unchanged, and a fresh client granting against the body
with token `a` and `expires_in` 60 at time 0 ends with token value `a`
(its expiry pinned by the theorem's success conjunct). -/
theorem grant_token_mutation_discipline_witness :
    (grant_token ⟨.str "old", 7⟩ 9 ⟨500, "", ""⟩).state.access_token_expires = 7 ∧
    (grant_token initialTokenState 0
        ⟨200, "", "\x7b\"access_token\": \"a\", \"expires_in\": 60\x7d"⟩).state.access_token =
      Json.str "a" :=
  ⟨((grant_token_mutation_discipline ⟨.str "old", 7⟩ 9 ⟨500, "", ""⟩).2.2 (.http 500) rfl).1,
   ((grant_token_mutation_discipline initialTokenState 0
      ⟨200, "", "\x7b\"access_token\": \"a\", \"expires_in\": 60\x7d"⟩).2.1 (.str "a") rfl).1⟩

/-- Claim C8: when the cached token is truthy and unexpired both get-token
operations return it with no network call; otherwise the grant request is
issued, and on a successful parse the cache is replaced by the new token
with expiry `now + expires_in` and the new token is returned; consequently
a second call within the validity window of the first result performs no
further network call and returns the identical value. -/
theorem grant_token_caching (st : TokenState) (now now2 : Int) (resp resp2 : HttpResponse) :
    (pyTruthy st.access_token = true → now < st.access_token_expires →
      grant_token st now resp = ⟨st, .ok st.access_token, false⟩ ∧
      async_grant_token st now resp = ⟨st, .ok st.access_token, false⟩) ∧
    (¬ (pyTruthy st.access_token = true ∧ now < st.access_token_expires) →
      (grant_token st now resp).networkCalled = true ∧
      (∀ env tok n, resp.status < 400 → jsonParse resp.body = some env →
        env.get ("access_token") = some tok → env.get ("expires_in") = some (.num n) →
        grant_token st now resp = ⟨⟨tok, now + n⟩, .ok tok, true⟩)) ∧
    (∀ tok, (grant_token st now resp).result = .ok tok → pyTruthy tok = true →
      now2 < (grant_token st now resp).state.access_token_expires →
      grant_token (grant_token st now resp).state now2 resp2 =
        ⟨(grant_token st now resp).state, .ok tok, false⟩) := by
  refine ⟨fun h1 h2 => ?_, fun hmiss => ⟨?_, ?_⟩, fun tok hok htruthy hexp => ?_⟩
  · have := grant_token_cache_hit st now resp h1 h2
    exact ⟨this, (async_grant_token_eq st now resp).trans this⟩
  · unfold grant_token
    rw [if_neg hmiss]
    split
    · rfl
    · split
      · rfl
      · split
        · rfl
        · split <;> rfl
  · intro env tok n hs henv htok hn
    have hse : statusError resp.status = false := by
      simp [statusError]
      omega
    unfold grant_token
    rw [if_neg hmiss, hse]
    simp [henv, htok, hn]
  · have hacc := grant_token_ok_access st now resp tok hok
    have := grant_token_cache_hit (grant_token st now resp).state now2 resp2
      (by rw [hacc]; exact htruthy) hexp
    rw [this, hacc]

/-- Witness for C8: a fresh client (empty cached token) issues the grant,
caches token `abc` with expiry `100 + 3600`, and a second call at time 200
returns `abc` from the cache with no network call. -/
theorem grant_token_caching_witness :
    grant_token initialTokenState 100
        ⟨200, "", "\x7b\"access_token\": \"abc\", \"expires_in\": 3600\x7d"⟩ =
      ⟨⟨.str "abc", 3700⟩, .ok (.str "abc"), true⟩ ∧
    grant_token ⟨.str "abc", 3700⟩ 200 ⟨200, "", ""⟩ =
      ⟨⟨.str "abc", 3700⟩, .ok (.str "abc"), false⟩ := by
  have h := grant_token_caching initialTokenState 100 200
    ⟨200, "", "\x7b\"access_token\": \"abc\", \"expires_in\": 3600\x7d"⟩ ⟨200, "", ""⟩
  constructor
  · have := (h.2.1 (by simp [initialTokenState, pyTruthy])).2
      (.obj [("access_token", .str "abc"), ("expires_in", .num 3600)])
      (.str "abc") 3600 (by decide) rfl rfl rfl
    simpa using this
  · have h2 := grant_token_caching ⟨.str "abc", 3700⟩ 200 0 ⟨200, "", ""⟩ ⟨200, "", ""⟩
    exact (h2.1 (by simp [pyTruthy]) (by decide)).1

lemma c3_take_term : ∀ k : Fin 16, endsWithTerm (c3Target.take k.val) = decide (k.val = 15) := by
  decide

lemma endsWithTerm_of_c3_proper (d : List Nat) (hpre : d <+: c3Target)
    (hne : d ≠ c3Target) : endsWithTerm d = false := by
  have hlen : d.length ≤ 15 := by
    have := hpre.length_le
    simpa [c3Target] using this
  have hd : d = c3Target.take d.length := List.prefix_iff_eq_take.mp hpre
  have hlt : d.length ≠ 15 := by
    intro h
    apply hne
    rw [hd, h]
    decide
  have := c3_take_term ⟨d.length, by omega⟩
  rw [← hd] at this
  simpa [hlt] using this

lemma readAux_c3 : ∀ (chunks : List (List Nat)) (buf : List Nat),
    (∀ c ∈ chunks, c ≠ []) → buf ++ chunks.flatten = c3Target → buf ≠ c3Target →
    readAux buf chunks = [c3Target]
  | [], buf, _, happ, hproper => by
    simp only [List.flatten_nil, List.append_nil] at happ
    exact absurd happ hproper
  | c :: rest, buf, hne, happ, hproper => by
    have happ2 : (buf ++ c) ++ rest.flatten = c3Target := by
      simpa [List.append_assoc] using happ
    by_cases hrest : rest.flatten = []
    · have hd : buf ++ c = c3Target := by simpa [hrest] using happ2
      have hterm : endsWithTerm (buf ++ c) = true := by rw [hd]; decide
      have hrestnil : rest = [] := by
        cases rest with
        | nil => rfl
        | cons c2 r2 =>
          exfalso
          have h2 : c2 ≠ [] := hne c2 (by simp)
          have h3 : c2 ++ r2.flatten = [] := by simpa using hrest
          exact h2 (List.append_eq_nil.mp h3).1
      subst hrestnil
      simp only [readAux]
      rw [if_pos hterm, hd]
      rfl
    · have hneq : buf ++ c ≠ c3Target := by
        intro h
        rw [h] at happ2
        have hl := congrArg List.length happ2
        rw [List.length_append] at hl
        have h0 : rest.flatten.length = 0 := by omega
        exact hrest (List.eq_nil_of_length_eq_zero h0)
      have hterm : endsWithTerm (buf ++ c) = false :=
        endsWithTerm_of_c3_proper _ ⟨rest.flatten, happ2⟩ hneq
      have ih := readAux_c3 rest (buf ++ c) (fun x hx => hne x (by simp [hx])) happ2 hneq
      simpa [readAux, hterm] using ih

/-- Claim C3: for every partition of the 15 bytes of
`data:` space `\x7b"a":1\x7d` `\n\n` into non-empty chunks delivered in
order, the manual reframing loop of the non-blocking path emits exactly one
frame (the whole sequence, whose only terminator-suffix position is its
end) and the frame loop yields exactly one event, the JSON object with
field `a` equal to `1` — independent of the chunk boundaries. -/
theorem manual_reframer_chunk_invariance (chunks : List (List Nat))
    (hne : ∀ c ∈ chunks, c ≠ []) (hjoin : chunks.flatten = c3Target) :
    sseDataEvents (read chunks) = .ok [.obj [("a", .num 1)]] none := by
  have h := readAux_c3 chunks [] hne (by simpa using hjoin) (by decide)
  rw [read, h]
  with_unfolding_all rfl

/-- Witness for C3 on a three-chunk partition with boundaries inside the
`data:` name and just before the final newline. -/
theorem manual_reframer_chunk_invariance_witness :
    sseDataEvents (read [asciiBytes ("da"), asciiBytes ("ta: \x7b\"a\":1\x7d\n"),
        asciiBytes ("\n")]) = .ok [.obj [("a", .num 1)]] none :=
  manual_reframer_chunk_invariance
    [asciiBytes ("da"), asciiBytes ("ta: \x7b\"a\":1\x7d\n"), asciiBytes ("\n")]
    (by decide) (by decide)

/-- Claim C1 counterexample: a blocking streaming request answered with
status 200, content type `application/json`, and the valid JSON envelope
body with `error_code = 0` yields zero events to the iterating caller —
not the one event the claim demands — because the generator executes
`return response`, which terminates iteration without yielding. -/
theorem content_type_fallback_cex :
    jsonParse (utf8Decode [asciiBytes ("\x7b\"error_code\": 0\x7d")].flatten) =
      some (.obj [("error_code", .num 0)]) ∧
    (completion_stream ⟨.str "t", 10⟩ 0 ("wenxin") ("p") ([]) ⟨200, "", ""⟩
        ⟨200, "application/json", [asciiBytes ("\x7b\"error_code\": 0\x7d")]⟩).2.2.events = [] ∧
    (completion_stream ⟨.str "t", 10⟩ 0 ("wenxin") ("p") ([]) ⟨200, "", ""⟩
        ⟨200, "application/json", [asciiBytes ("\x7b\"error_code\": 0\x7d")]⟩).2.2 =
      .ok [] (some (.obj [("error_code", .num 0)])) :=
  ⟨rfl, rfl, rfl⟩

/-- Claim C1 (amended): for every streaming completion request that
reaches a 2xx response whose `Content-Type` does not start with
`text/event-stream` and whose body is a valid JSON envelope with a zero
(or absent) `error_code`: the non-blocking mode yields exactly one event
equal to that envelope and never reads the event stream (the
fall-through reframing loop iterates a content stream already consumed by
`r.json()`); the blocking mode yields no events at all — its generator
terminates immediately with the envelope as the generator return value
(`return response` inside a generator), which an iterating caller never
sees. -/
theorem content_type_fallback (st : TokenState) (now : Int) (model prompt : String)
    (history : List (String × String)) (gResp : HttpResponse) (resp : StreamHttpResponse)
    (tok env : Json)
    (hgrant : (grant_token st now gResp).result = .ok tok)
    (hstatus : 200 ≤ resp.status ∧ resp.status < 300)
    (hct : resp.contentType.startsWith ("text/event-stream") = false)
    (hbody : jsonParse (utf8Decode resp.chunks.flatten) = some env)
    (hec : pyNeZero ((env.get ("error_code")).getD (.num 0)) = false) :
    (completion_stream st now model prompt history gResp resp).2.2 = .ok [] (some env) ∧
    (acompletion_stream st now model prompt history gResp resp).2.2 = .ok [env] none := by
  have hse : statusError resp.status = false := by
    simp [statusError]
    omega
  have henv : envelopeCheck env = .ok env := by
    simp [envelopeCheck, hec]
  constructor
  · simp [completion_stream, hgrant, hse, hct, hbody, henv]
  · simp [acompletion_stream, async_grant_token_eq, hgrant, hse, hct, hbody, henv,
      read, readAux, sseDataEvents, GenResult.prepend]

/-- Witness for C1 (amended) at a concrete non-event-stream response. -/
theorem content_type_fallback_witness :
    (completion_stream ⟨.str "t", 10⟩ 0 ("ernie-bot") ("p") ([]) ⟨200, "", ""⟩
        ⟨200, "application/json", [asciiBytes ("\x7b\"result\": \"r\"\x7d")]⟩).2.2 =
      .ok [] (some (.obj [("result", .str "r")])) ∧
    (acompletion_stream ⟨.str "t", 10⟩ 0 ("ernie-bot") ("p") ([]) ⟨200, "", ""⟩
        ⟨200, "application/json", [asciiBytes ("\x7b\"result\": \"r\"\x7d")]⟩).2.2 =
      .ok [.obj [("result", .str "r")]] none :=
  content_type_fallback ⟨.str "t", 10⟩ 0 ("ernie-bot") ("p") ([]) ⟨200, "", ""⟩
    ⟨200, "application/json", [asciiBytes ("\x7b\"result\": \"r\"\x7d")]⟩
    (.str "t") (.obj [("result", .str "r")])
    rfl ⟨by decide, by decide⟩ rfl rfl rfl

end LangchainWenxin
